import Mathlib

/-!
Shallow embedding of the cppcheck VS Code extension (`src/extension.ts`)
and a verification of the specification's claims about it.

Strings are modelled as `List Char`.  The text-mode output scanner models
the JavaScript regular expression
`^(.*?):(\d+):(\d+):\s*(error|warning|style|performance|information|info|note):\s*(.*)$`
with the `g` and `m` flags, including the facts that `\s` matches a newline
(so a match may span physical lines) and that the leading group is lazy.
Documents are modelled by their list of line texts.
-/

namespace Cppcheck

abbrev Str := List Char

/-- JavaScript `String.prototype.includes`: substring containment test,
checking for a prefix at every position. -/
def strIncludes (hay pat : Str) : Bool :=
  match hay with
  | [] => pat.isPrefixOf []
  | c :: r => pat.isPrefixOf (c :: r) || strIncludes r pat

/-- `strIncludes` decides the sublist-as-contiguous-infix relation. -/
theorem strIncludes_iff (pat hay : Str) : strIncludes hay pat = true ↔ pat <:+: hay := by
  induction hay with
  | nil =>
    simp [strIncludes, List.isPrefixOf_iff_prefix, List.infix_nil, List.prefix_nil]
  | cons c r ih =>
    simp [strIncludes, Bool.or_eq_true, ih, List.isPrefixOf_iff_prefix, List.infix_cons_iff]

/-- `vscode.DiagnosticSeverity`, restricted to the constructors the code uses. -/
inductive DiagnosticSeverity where
  | Error
  | Warning
  | Information
deriving DecidableEq, Repr

/-- `parseSeverity` from `extension.ts`: case-insensitive substring match on
the severity word. -/
def parseSeverity (s : Str) : DiagnosticSeverity :=
  let lower := s.map Char.toLower
  if strIncludes lower (("error").toList) then .Error
  else if strIncludes lower (("warning").toList) then .Warning
  else .Information

/-- `severityToNumber` from `extension.ts` (`SeverityNumber`: Info 0, Warning 1,
Error 2; the `switch` default maps everything else to Info). -/
def severityToNumber : DiagnosticSeverity → Nat
  | .Error => 2
  | .Warning => 1
  | .Information => 0

/-- `parseMinSeverity` from `extension.ts`. -/
def parseMinSeverity (s : Str) : Nat :=
  let lower := s.map Char.toLower
  if lower = ("error").toList then 2
  else if lower = ("warning").toList then 1
  else 0

/-- C6: for every severity string the mapping is a case-insensitive substring
match: any string containing "error" maps to Error, any string not containing
"error" but containing "warning" maps to Warning, and every other string maps
to Information. -/
theorem c6_parseSeverity_substring (s : Str) :
    (parseSeverity s = .Error ↔ (("error").toList) <:+: s.map Char.toLower)
    ∧ (parseSeverity s = .Warning ↔
        ¬ (("error").toList) <:+: s.map Char.toLower
        ∧ (("warning").toList) <:+: s.map Char.toLower)
    ∧ (parseSeverity s = .Information ↔
        ¬ (("error").toList) <:+: s.map Char.toLower
        ∧ ¬ (("warning").toList) <:+: s.map Char.toLower) := by
  have he : strIncludes (s.map Char.toLower) (("error").toList) = true
      ↔ (['e', 'r', 'r', 'o', 'r'] : Str) <:+: s.map Char.toLower :=
    strIncludes_iff _ _
  have hw : strIncludes (s.map Char.toLower) (("warning").toList) = true
      ↔ (['w', 'a', 'r', 'n', 'i', 'n', 'g'] : Str) <:+: s.map Char.toLower :=
    strIncludes_iff _ _
  simp only [parseSeverity]
  by_cases h1 : strIncludes (s.map Char.toLower) (("error").toList) = true
  · rw [if_pos h1]
    have h1' := he.mp h1
    exact ⟨by simp [h1'], by simp [h1'], by simp [h1']⟩
  · rw [if_neg h1]
    have h1' : ¬ (['e', 'r', 'r', 'o', 'r'] : Str) <:+: s.map Char.toLower :=
      fun h => h1 (he.mpr h)
    by_cases h2 : strIncludes (s.map Char.toLower) (("warning").toList) = true
    · rw [if_pos h2]
      have h2' := hw.mp h2
      exact ⟨by simp [h1'], by simp [h1', h2'], by simp [h1', h2']⟩
    · rw [if_neg h2]
      have h2' : ¬ (['w', 'a', 'r', 'n', 'i', 'n', 'g'] : Str) <:+: s.map Char.toLower :=
        fun h => h2 (hw.mpr h)
      exact ⟨by simp [h1'], by simp [h1', h2'], by simp [h1', h2']⟩

/-- One match of the finding pattern: captured groups of
`^(.*?):(\d+):(\d+):\s*(sev):\s*(.*)$`. -/
structure Finding where
  file : Str
  line : Nat
  col : Nat
  sevWord : Str
  msg : Str
deriving DecidableEq, Repr

/-- Whitespace characters matched by the regex class `\s`, other than the
newline (input is pre-split into lines; crossing a newline is modelled
explicitly in the scanner). -/
def isWsChar (c : Char) : Bool :=
  c = ' ' || c = '\t' || c = '\r' || c = '\x0b' || c = '\x0c' || c = ' '

def dropWs (s : Str) : Str := s.dropWhile isWsChar

def isAllWs (s : Str) : Bool := s.all isWsChar

def isDigitChar (c : Char) : Bool := '0' ≤ c && c ≤ '9'

def digitsToNat (s : Str) : Nat :=
  s.foldl (fun n c => 10 * n + (c.toNat - ('0').toNat)) 0

/-- The severity alternatives of the pattern, in alternation order. -/
def severityWords : List Str :=
  [("error").toList, ("warning").toList, ("style").toList, ("performance").toList,
   ("information").toList, ("info").toList, ("note").toList]

/-- Match `(error|warning|style|performance|information|info|note):` at the
start of `s`; returns the severity word and the remainder after the colon. -/
def matchSev (s : Str) : Option (Str × Str) :=
  (severityWords.find? (fun w => (w ++ [':']).isPrefixOf s)).map
    (fun w => (w, s.drop (w.length + 1)))

/-- Continuation of the final `\s*(.*)$` when the whitespace run has reached
the end of a physical line: `\s` also matches `\n`, so the run continues over
following lines; the message is the rest of the first line holding a
non-whitespace character.  Returns the message and the number of further
lines consumed by the match. -/
def crossMsg : List Str → Str × Nat
  | [] => ([], 0)
  | l :: ls =>
    if isAllWs l then
      let p := crossMsg ls
      (p.1, p.2 + 1)
    else (dropWs l, 1)

/-- Continuation of `\s*(sev):\s*(.*)$` when the first whitespace run has
reached the end of a physical line: skip whitespace-only lines, then the
severity word must appear right after the leading whitespace of the next
line holding any non-whitespace character. -/
def crossSev : List Str → Option (Str × Str × Nat)
  | [] => none
  | l :: ls =>
    if isAllWs l then (crossSev ls).map (fun p => (p.1, p.2.1, p.2.2 + 1))
    else
      match matchSev (dropWs l) with
      | some (w, rest) =>
        let t := dropWs rest
        if t = [] then
          let p := crossMsg ls
          some (w, p.1, p.2 + 1)
        else some (w, t, 1)
      | none => none

/-- Line-local outcome of attempting `(\d+):(\d+):\s*(sev):\s*(.*)$` right
after a candidate file-terminating colon. -/
inductive AttemptRes where
  | fail
  | hit (lineNo colNo : Nat) (sevWord msg : Str)
  | needSev (lineNo colNo : Nat)
  | needMsg (lineNo colNo : Nat) (sevWord : Str)
deriving DecidableEq, Repr

/-- Attempt `(\d+):(\d+):\s*(sev):\s*(.*)$` on the rest `r` of the current
line.  `needSev`/`needMsg` report that a `\s*` run reached the line end, so
the match continues on following lines. -/
def attemptAt (r : Str) : AttemptRes :=
  let d1 := r.takeWhile isDigitChar
  if d1 = [] then .fail
  else
    match r.drop d1.length with
    | ':' :: r2 =>
      let d2 := r2.takeWhile isDigitChar
      if d2 = [] then .fail
      else
        match r2.drop d2.length with
        | ':' :: tail =>
          let t := dropWs tail
          if t = [] then .needSev (digitsToNat d1) (digitsToNat d2)
          else
            match matchSev t with
            | some (w, rest) =>
              let t2 := dropWs rest
              if t2 = [] then .needMsg (digitsToNat d1) (digitsToNat d2) w
              else .hit (digitsToNat d1) (digitsToNat d2) w t2
            | none => .fail
        | _ => .fail
    | _ => .fail

/-- The lazy group `(.*?)` tries the shortest file prefix first: walk the
line left to right and, at each colon, attempt the rest of the pattern;
backtrack (extend the file group) on failure.  `needSev`/`needMsg` resolve
the line-crossing whitespace runs against the following lines `ls`; a failed
cross-line severity search backtracks like any other failure. -/
def splitLoop (acc rest : Str) (ls : List Str) : Option (Finding × Nat) :=
  match rest with
  | [] => none
  | c :: r =>
    match (if c = ':' then attemptAt r else .fail) with
    | .fail => splitLoop (c :: acc) r ls
    | .hit ln col w m => some (⟨acc.reverse, ln, col, w, m⟩, 0)
    | .needSev ln col =>
      match crossSev ls with
      | some p => some (⟨acc.reverse, ln, col, p.1, p.2.1⟩, p.2.2)
      | none => splitLoop (c :: acc) r ls
    | .needMsg ln col w =>
      let p := crossMsg ls
      some (⟨acc.reverse, ln, col, w, p.1⟩, p.2)

/-- Try to match the pattern at the start of line `l`, with `ls` the lines
following it (a match may consume some of them).  Returns the finding and
the number of following lines consumed. -/
def tryMatch (l : Str) (ls : List Str) : Option (Finding × Nat) :=
  splitLoop [] l ls

/-- The single-line reading of the pattern: match `l` in isolation.  This is
what the specification describes as applying the finding pattern
line-by-line. -/
def lineMatch (l : Str) : Option Finding :=
  (tryMatch l []).map Prod.fst

/-- Fuelled scan over the list of physical lines: at each line start, try a
match; on success, continue after the lines the match consumed (as
`regex.exec` restarts at `lastIndex`), else move to the next line. -/
def scanAux : Nat → List Str → List Finding
  | 0, _ => []
  | _ + 1, [] => []
  | fuel + 1, l :: ls =>
    match tryMatch l ls with
    | some (f, n) => f :: scanAux fuel (ls.drop n)
    | none => scanAux fuel ls

/-- All matches of the global multiline regex over the given lines. -/
def scanLines (ls : List Str) : List Finding :=
  scanAux ls.length ls

/-- Split a character list at every occurrence of `c` (like
`String.prototype.split` with a single-character separator). -/
def splitOnChar (c : Char) : Str → List Str
  | [] => [[]]
  | x :: r =>
    if x = c then [] :: splitOnChar c r
    else
      match splitOnChar c r with
      | l :: ls => (x :: l) :: ls
      | [] => [[x]]

def splitLines (s : Str) : List Str := splitOnChar '\n' s

/-- `extension.ts` line 332: `const allOutput = err + '\n' + out`, then the
regex is executed globally over `allOutput`. -/
def extractFindings (errText outText : Str) : List Finding :=
  scanLines (splitLines (errText ++ '\n' :: outText))

/-- A produced `vscode.Diagnostic`, restricted to the fields the code sets. -/
structure Diagnostic where
  startLine : Int
  startCol : Int
  endLine : Int
  endCol : Int
  message : Str
  severity : DiagnosticSeverity
  code : Str
  source : Str
deriving DecidableEq, Repr

/-- Column clamping from `extension.ts` lines 351-356: a negative (or `NaN`)
zero-based column becomes 0; a column strictly greater than the line length
becomes `max(0, length - 1)`. -/
def clampCol (raw : Int) (len : Nat) : Int :=
  let c := if raw < 0 then 0 else raw
  if c > (len : Int) then max 0 ((len : Int) - 1) else c

/-- End column from `extension.ts` line 358: `Math.min(lineText.length, col + 1)`. -/
def endColOf (len : Nat) (c : Int) : Int :=
  min (len : Int) (c + 1)

/-- The loop body of `extension.ts` lines 333-367 for one regex match:
severity filter, line-range check, column clamping, diagnostic construction.
`none` models `continue`. -/
def buildDiag (docLines : List Str) (minSevNum : Nat) (standard : Str)
    (f : Finding) : Option Diagnostic :=
  let line : Int := (f.line : Int) - 1
  let diagSeverity := parseSeverity f.sevWord
  if severityToNumber diagSeverity < minSevNum then none
  else if line < 0 ∨ line ≥ (docLines.length : Int) then none
  else
    let lineText := docLines.getD line.toNat []
    let col := clampCol ((f.col : Int) - 1) lineText.length
    some { startLine := line, startCol := col, endLine := line,
           endCol := endColOf lineText.length col,
           message := f.msg, severity := diagSeverity,
           code := if standard ≠ ("<none>").toList then standard else [],
           source := ("cppcheck").toList }

/-- The whole match-processing loop: each match yields at most one
diagnostic, accumulated in order. -/
def processFindings (docLines : List Str) (minSevNum : Nat) (standard : Str)
    (fs : List Finding) : List Diagnostic :=
  fs.filterMap (buildDiag docLines minSevNum standard)

/-- The full text-mode parse-and-build pipeline of `runCppcheckOnFile` for
one run's streams. -/
def textModeRun (docLines : List Str) (minSevString standard : Str)
    (errText outText : Str) : List Diagnostic :=
  processFindings docLines (parseMinSeverity minSevString) standard
    (extractFindings errText outText)

/-- Outcome of scanning a single line in isolation: an in-line match, a
whitespace run reaching the line end (so the result depends on the following
lines), or no candidate at all. -/
inductive LocalOutcome where
  | matched (f : Finding)
  | crossed
  | noHit
deriving DecidableEq, Repr

/-- Mirror of `splitLoop` that stops at the first attempt whose resolution
would depend on the following lines. -/
def firstResLoop (acc rest : Str) : LocalOutcome :=
  match rest with
  | [] => .noHit
  | c :: r =>
    match (if c = ':' then attemptAt r else .fail) with
    | .fail => firstResLoop (c :: acc) r
    | .hit ln col w m => .matched ⟨acc.reverse, ln, col, w, m⟩
    | .needSev _ _ => .crossed
    | .needMsg _ _ _ => .crossed

def firstRes (l : Str) : LocalOutcome := firstResLoop [] l

/-- A line is self-contained when matching it never looks at the following
lines: no whitespace run of a candidate match reaches the line end. -/
def selfContained (l : Str) : Bool :=
  match firstRes l with
  | .crossed => false
  | _ => true

/-- On a line whose scan never crosses the line end, `splitLoop` ignores the
following lines and consumes none of them. -/
theorem splitLoop_firstResLoop (rest : Str) : ∀ (acc : Str) (ls : List Str),
    firstResLoop acc rest ≠ .crossed →
    splitLoop acc rest ls =
      (match firstResLoop acc rest with
       | .matched f => some (f, 0)
       | _ => none) := by
  induction rest with
  | nil => intro acc ls _; rfl
  | cons c r ih =>
    intro acc ls h
    simp only [splitLoop, firstResLoop] at h ⊢
    cases hA : (if c = ':' then attemptAt r else AttemptRes.fail) with
    | fail => simp only [hA] at h ⊢; exact ih _ _ h
    | hit ln col w m => simp only [hA] at h ⊢
    | needSev ln col => simp only [hA] at h; exact absurd rfl h
    | needMsg ln col w => simp only [hA] at h; exact absurd rfl h

/-- On a self-contained line a match is what the single-line pattern yields,
and consumes no following line. -/
theorem selfContained_tryMatch (l : Str) (ls : List Str) (h : selfContained l = true) :
    tryMatch l ls = (lineMatch l).map (fun f => (f, 0)) := by
  have hne : firstRes l ≠ .crossed := by
    intro hc
    rw [selfContained, hc] at h
    exact absurd h (by simp)
  have h1 := splitLoop_firstResLoop l [] ls hne
  have h2 := splitLoop_firstResLoop l [] ([] : List Str) hne
  rw [tryMatch, h1, lineMatch, tryMatch, h2]
  cases hr : firstResLoop [] l with
  | matched f => rfl
  | crossed => exact absurd hr hne
  | noHit => rfl

/-- `scanAux` is independent of the fuel once the fuel covers the number of
lines. -/
theorem scanAux_congr : ∀ (f1 f2 : Nat) (ls : List Str),
    ls.length ≤ f1 → ls.length ≤ f2 → scanAux f1 ls = scanAux f2 ls := by
  intro f1
  induction f1 with
  | zero =>
    intro f2 ls h1 _
    have hls : ls = [] := List.eq_nil_of_length_eq_zero (Nat.le_zero.mp h1)
    subst hls
    cases f2 <;> rfl
  | succ f1 ih =>
    intro f2 ls h1 h2
    cases ls with
    | nil => cases f2 <;> rfl
    | cons l ls' =>
      cases f2 with
      | zero => simp at h2
      | succ f2' =>
        have h1' : ls'.length ≤ f1 := by simpa using h1
        have h2' : ls'.length ≤ f2' := by simpa using h2
        simp only [scanAux]
        cases ht : tryMatch l ls' with
        | some p =>
          obtain ⟨f, n⟩ := p
          dsimp only
          have hd : (ls'.drop n).length ≤ f1 := by
            rw [List.length_drop]; omega
          have hd' : (ls'.drop n).length ≤ f2' := by
            rw [List.length_drop]; omega
          rw [ih f2' _ hd hd']
        | none => exact ih f2' ls' h1' h2'

/-- Unfolding equation for `scanLines` on a nonempty list of lines. -/
theorem scanLines_cons (l : Str) (ls : List Str) :
    scanLines (l :: ls) =
      (match tryMatch l ls with
       | some (f, n) => f :: scanLines (ls.drop n)
       | none => scanLines ls) := by
  show scanAux (ls.length + 1) (l :: ls) = _
  simp only [scanAux]
  cases ht : tryMatch l ls with
  | some p =>
    obtain ⟨f, n⟩ := p
    dsimp only
    rw [scanLines, scanAux_congr ls.length (ls.drop n).length (ls.drop n)
      (by rw [List.length_drop]; omega) le_rfl]
  | none => rfl

/-- When every line is self-contained, the global multiline scan coincides
with matching each line in isolation. -/
theorem scanLines_filterMap (ls : List Str) (h : ∀ l ∈ ls, selfContained l = true) :
    scanLines ls = ls.filterMap lineMatch := by
  induction ls with
  | nil => rfl
  | cons l ls ih =>
    rw [scanLines_cons, selfContained_tryMatch l ls (h l (by simp))]
    have ih' := ih (fun x hx => h x (by simp [hx]))
    cases hm : lineMatch l with
    | none => simpa [hm, List.filterMap_cons] using ih'
    | some f => simpa [hm, List.filterMap_cons] using ih'

theorem splitOnChar_ne_nil (c : Char) (s : Str) : splitOnChar c s ≠ [] := by
  cases s with
  | nil => simp [splitOnChar]
  | cons x r =>
    rw [splitOnChar]
    by_cases h : x = c
    · simp [h]
    · simp only [if_neg h]
      cases hs : splitOnChar c r <;> simp

/-- Splitting distributes over concatenation around an explicit separator. -/
theorem splitOnChar_append (c : Char) (a b : Str) :
    splitOnChar c (a ++ c :: b) = splitOnChar c a ++ splitOnChar c b := by
  induction a with
  | nil => simp [splitOnChar]
  | cons x a ih =>
    by_cases h : x = c
    · subst h
      show splitOnChar x (x :: (a ++ x :: b)) = splitOnChar x (x :: a) ++ _
      rw [splitOnChar, if_pos rfl, splitOnChar, if_pos rfl, ih]
      rfl
    · show splitOnChar c (x :: (a ++ c :: b)) = splitOnChar c (x :: a) ++ _
      rw [splitOnChar, if_neg h, splitOnChar, if_neg h, ih]
      cases hs : splitOnChar c a with
      | nil => exact absurd hs (splitOnChar_ne_nil c a)
      | cons l0 ls0 => rfl

/-- A string not containing the separator splits to itself. -/
theorem splitOnChar_of_not_mem (c : Char) (s : Str) (h : c ∉ s) :
    splitOnChar c s = [s] := by
  induction s with
  | nil => rfl
  | cons x r ih =>
    have hx : ¬ x = c := fun hxc => h (hxc ▸ List.mem_cons_self x r)
    have hr : c ∉ r := fun hc => h (List.mem_cons_of_mem x hc)
    rw [splitOnChar, if_neg hx, ih hr]

/-- The first piece of a split is everything up to the first separator. -/
theorem splitOnChar_head (c : Char) (s : Str) :
    ∃ ls, splitOnChar c s = s.takeWhile (fun x => x != c) :: ls := by
  induction s with
  | nil => exact ⟨[], rfl⟩
  | cons x r ih =>
    by_cases hx : x = c
    · subst hx
      refine ⟨splitOnChar x r, ?_⟩
      rw [splitOnChar, if_pos rfl]
      simp [List.takeWhile]
    · obtain ⟨ls, hls⟩ := ih
      refine ⟨ls, ?_⟩
      rw [splitOnChar, if_neg hx, hls]
      have hxc : (x != c) = true := by simp [hx]
      simp [List.takeWhile, hxc]

/-- Replacing the empty following-lines context by a single empty line keeps
the same finding: the empty line has nothing for a cross-line continuation
to use. -/
theorem splitLoop_pad (rest : Str) : ∀ (acc : Str) (f : Finding) (n : Nat),
    splitLoop acc rest [] = some (f, n) →
    splitLoop acc rest [[]] = some (f, 0) ∨ splitLoop acc rest [[]] = some (f, 1) := by
  induction rest with
  | nil => intro acc f n h; exact absurd h (by simp [splitLoop])
  | cons c r ih =>
    intro acc f n h
    simp only [splitLoop] at h ⊢
    cases hA : (if c = ':' then attemptAt r else AttemptRes.fail) with
    | fail => simp only [hA] at h ⊢; exact ih _ _ _ h
    | hit ln col w m =>
      simp only [hA, Option.some.injEq, Prod.mk.injEq] at h ⊢
      exact Or.inl ⟨h.1, trivial⟩
    | needSev ln col =>
      have h0 : crossSev ([] : List Str) = none := rfl
      have h1 : crossSev ([[]] : List Str) = none := by
        simp [crossSev, isAllWs]
      simp only [hA, h0] at h
      simp only [hA, h1]
      exact ih _ _ _ h
    | needMsg ln col w =>
      have h0 : crossMsg ([] : List Str) = ([], 0) := rfl
      have h1 : crossMsg ([[]] : List Str) = ([], 1) := by
        simp [crossMsg, isAllWs]
      simp only [hA, h0, Option.some.injEq, Prod.mk.injEq] at h
      simp only [hA, h1, Option.some.injEq, Prod.mk.injEq]
      exact Or.inr ⟨h.1, trivial⟩

theorem tryMatch_pad (l : Str) (f : Finding) (n : Nat)
    (h : tryMatch l [] = some (f, n)) :
    tryMatch l [[]] = some (f, 0) ∨ tryMatch l [[]] = some (f, 1) :=
  splitLoop_pad l [] f n h

/-- Modelled from the spec: a `location` node of the structured ("markup")
output shape `results → errors → error*` (spec §4.1(a)); the structured-mode
code path is not present under `src/`, only the text-mode path is. -/
structure SLocation where
  file : Str
  line : Nat
  info : Option Str
deriving DecidableEq, Repr

/-- Modelled from the spec: an `error` node of the structured output, with
attributes `severity`, `id`, `msg` and a sequence of `location` nodes. -/
structure SError where
  severity : Str
  id : Str
  msg : Str
  locations : List SLocation
deriving DecidableEq, Repr

/-- Modelled from the spec: a diagnostic produced in structured mode.  The
range always spans the full line (spec §4.2.2), so only the line, the column
bounds, and the related-information entries are kept. -/
structure SDiagnostic where
  line : Int
  startCol : Int
  endCol : Int
  message : Str
  severity : DiagnosticSeverity
  code : Str
  source : Str
  related : List (SLocation × Str)
deriving DecidableEq, Repr

/-- Modelled from the spec: the structured-mode builder for one `error` node
(spec §4.1(a), §4.2).  An error with zero locations is skipped entirely; the
*last* location is the primary one; an out-of-range primary line drops the
finding; the range spans the full line; no severity filter is applied
(spec §4.2.3); every location carrying a non-empty note and resolving to an
in-range line becomes a related-information entry, in original order. -/
def buildStructuredOne (docLines : List Str) (e : SError) : Option SDiagnostic :=
  match e.locations.getLast? with
  | none => none
  | some primary =>
    let line : Int := (primary.line : Int) - 1
    if line < 0 ∨ line ≥ (docLines.length : Int) then none
    else
      let lineText := docLines.getD line.toNat []
      some { line := line, startCol := 0, endCol := (lineText.length : Int),
             message := ("cppcheck: ").toList ++ e.msg,
             severity := parseSeverity e.severity,
             code := e.id, source := ("cppcheck").toList,
             related := e.locations.filterMap (fun loc =>
               match loc.info with
               | some note =>
                 if note ≠ [] ∧ 1 ≤ loc.line ∧ loc.line ≤ docLines.length then
                   some (loc, note)
                 else none
               | none => none) }

/-- Modelled from the spec: the structured-mode builder over the `error`
sequence, in encounter order. -/
def buildStructured (docLines : List Str) (errs : List SError) : List SDiagnostic :=
  errs.filterMap (buildStructuredOne docLines)

/-- JavaScript whitespace for `String.prototype.trim` (the `\s` class
including the newline). -/
def isJsWsChar (c : Char) : Bool := isWsChar c || c = '\n'

/-- JavaScript `String.prototype.trim`. -/
def trimWs (s : Str) : Str :=
  ((s.dropWhile isJsWsChar).reverse.dropWhile isJsWsChar).reverse

/-- The close-handler guard `if (code && code > 1)` of `extension.ts`
line 324: `code` is `null` when the process was killed by a signal, and `0`
is falsy, so the guard holds exactly for a non-zero exit code greater
than 1. -/
def jsExitFailure : Option Int → Bool
  | some c => decide (c ≠ 0) && decide (1 < c)
  | none => false

/-- The per-document diagnostic-collection entry after a run of
`runCppcheckOnFile`: line 285 deletes the entry before spawning, and the
close handler (lines 323-369) either leaves it deleted (failure exit) or
installs the parsed diagnostics. -/
def runDiagEntry (docLines : List Str) (minSevString standard : Str)
    (code : Option Int) (errText outText : Str)
    (prev : Option (List Diagnostic)) : Option (List Diagnostic) :=
  let afterDelete : Option (List Diagnostic) := match prev with | _ => none
  if jsExitFailure code then afterDelete
  else some (textModeRun docLines minSevString standard errText outText)

/-- The user-facing error message raised by the close handler: on a failure
exit it shows `` `${err.trim()} ${out.trim()}` `` (line 327), otherwise
nothing. -/
def runUserError (code : Option Int) (errText outText : Str) : Option Str :=
  if jsExitFailure code then some (trimWs errText ++ ' ' :: trimWs outText)
  else none

/-- POSIX reading of `path.isAbsolute`. -/
def isAbsolutePath (p : Str) : Bool :=
  match p with
  | c :: _ => c = '/'
  | [] => false

/-- Normalization of path segments as in Node's `path.posix.normalize`:
empty and `.` segments vanish; `..` pops the previous segment, chains at the
front of a relative path, and vanishes at the root of an absolute one. -/
def normSegsAux (isAbs : Bool) : List Str → List Str → List Str
  | acc, [] => acc.reverse
  | acc, seg :: rest =>
    if seg = [] ∨ seg = ['.'] then normSegsAux isAbs acc rest
    else if seg = ['.', '.'] then
      match acc with
      | [] =>
        if isAbs then normSegsAux isAbs [] rest
        else normSegsAux isAbs [seg] rest
      | top :: acc' =>
        if top = ['.', '.'] then normSegsAux isAbs (seg :: acc) rest
        else normSegsAux isAbs acc' rest
    else normSegsAux isAbs (seg :: acc) rest

/-- Node `path.posix.normalize` (trailing-slash details aside). -/
def normalizePath (p : Str) : Str :=
  let abs := isAbsolutePath p
  let segs := normSegsAux abs [] (splitOnChar '/' p)
  let body := List.intercalate ['/'] segs
  if abs then '/' :: body
  else if body = [] then ['.']
  else body

/-- Node `path.posix.join` for two arguments: empty parts are dropped, the
rest joined with `/` and normalized; all-empty input gives `.`. -/
def joinPath (a b : Str) : Str :=
  if a = [] ∧ b = [] then ['.']
  else if a = [] then normalizePath b
  else if b = [] then normalizePath a
  else normalizePath (a ++ '/' :: b)

/-- Node `path.posix.resolve` for the two-argument uses in `resolvePath`:
an absolute right argument wins, otherwise it is resolved against `root`. -/
def resolveFrom (root p : Str) : Str :=
  if isAbsolutePath p then normalizePath p
  else normalizePath (root ++ '/' :: p)

/-- JavaScript `String.prototype.replace` with a string pattern: replaces
only the first occurrence. -/
def replaceFirst (pat rep : Str) (s : Str) : Str :=
  if pat.isPrefixOf s then rep ++ s.drop pat.length
  else
    match s with
    | [] => []
    | c :: r => c :: replaceFirst pat rep r

def workspaceFolderVar : Str := ("${workspaceFolder}").toList

/-- The first three expansion steps of `resolvePath` (`extension.ts`
lines 47-60): `${workspaceFolder}` substitution, tilde expansion against the
home directory, and `./`/`../` resolution against the workspace root. -/
def resolvePathCore (workspaceRoot homedir : Str) (argPath : Str) : Str :=
  let p1 :=
    if strIncludes argPath workspaceFolderVar then
      replaceFirst workspaceFolderVar workspaceRoot argPath
    else argPath
  let p2 :=
    match p1 with
    | '~' :: rest => joinPath homedir rest
    | _ => p1
  if (("./").toList).isPrefixOf p2 ∨ (("../").toList).isPrefixOf p2 then
    resolveFrom workspaceRoot p2
  else p2

/-- `resolvePath` from `extension.ts` lines 41-67, with the workspace root
(or `process.cwd()` fallback) and the home directory as parameters: after
the expansion steps, anything still relative is joined to the workspace
root (lines 63-65). -/
def resolvePath (workspaceRoot homedir : Str) (argPath : Str) : Str :=
  let p3 := resolvePathCore workspaceRoot homedir argPath
  if isAbsolutePath p3 then p3 else joinPath workspaceRoot p3

/-- The per-argument mapping of `extension.ts` lines 293-299: an argument
starting with `--project` is split on `=` and rebuilt as
`` `${splitArg[0]}=${resolvePath(splitArg[1])}` ``; other arguments pass
through.  `none` models the `TypeError` thrown when such an argument has no
`=` at all (`splitArg[1]` is `undefined`). -/
def mapExtraArg (workspaceRoot homedir : Str) (arg : Str) : Option Str :=
  if (("--project").toList).isPrefixOf arg then
    match splitOnChar '=' arg with
    | a :: b :: _ => some (a ++ '=' :: resolvePath workspaceRoot homedir b)
    | _ => none
  else some arg

/-- `extraArgs.split(" ").map(...)` from `extension.ts` line 293. -/
def parseExtraArgs (workspaceRoot homedir extraArgs : Str) : List (Option Str) :=
  (splitOnChar ' ' extraArgs).map (mapExtraArg workspaceRoot homedir)

/-- C1: for every valid structured-mode input whose errors each have at
least one location, with every referenced line inside the document, the
builder produces exactly one diagnostic per error, and each diagnostic's
primary line is taken from the last location listed for its error. -/
theorem c1_structured_count_and_primary (docLines : List Str) (errs : List SError)
    (h : ∀ e ∈ errs, e.locations ≠ []
      ∧ ∀ loc ∈ e.locations, 1 ≤ loc.line ∧ loc.line ≤ docLines.length) :
    (buildStructured docLines errs).length = errs.length
    ∧ List.Forall₂ (fun (e : SError) (d : SDiagnostic) =>
        ∃ p, e.locations.getLast? = some p ∧ d.line = (p.line : Int) - 1)
        errs (buildStructured docLines errs) := by
  induction errs with
  | nil => exact ⟨rfl, List.Forall₂.nil⟩
  | cons e es ih =>
    obtain ⟨hne, hloc⟩ := h e (List.mem_cons_self e es)
    obtain ⟨p, hp⟩ : ∃ p, e.locations.getLast? = some p := by
      cases hgl : e.locations.getLast? with
      | none => exact absurd (List.getLast?_eq_none_iff.mp hgl) hne
      | some p => exact ⟨p, rfl⟩
    obtain ⟨hp1, hp2⟩ := hloc p (List.mem_of_mem_getLast? hp)
    have hline : ¬ ((p.line : Int) - 1 < 0 ∨ (p.line : Int) - 1 ≥ (docLines.length : Int)) := by
      push_neg
      omega
    obtain ⟨d, hd, hdl⟩ : ∃ d, buildStructuredOne docLines e = some d
        ∧ d.line = (p.line : Int) - 1 := by
      rw [buildStructuredOne, hp]
      dsimp only
      rw [if_neg hline]
      exact ⟨_, rfl, rfl⟩
    have ih' := ih (fun x hx => h x (List.mem_cons_of_mem e hx))
    constructor
    · simp only [buildStructured, List.filterMap_cons, hd, List.length_cons]
      rw [show es.filterMap (buildStructuredOne docLines) = buildStructured docLines es from rfl,
        ih'.1]
    · simp only [buildStructured, List.filterMap_cons, hd]
      exact List.Forall₂.cons ⟨p, hp, hdl⟩ ih'.2

def docW : List Str := [("int a;").toList, ("int b;").toList, ("int c;").toList]

def errsW : List SError :=
  [⟨("error").toList, ("nullPointer").toList, ("M").toList,
    [⟨("a.cpp").toList, 3, some (("deref").toList)⟩, ⟨("a.cpp").toList, 1, none⟩]⟩,
   ⟨("warning").toList, ("unusedVar").toList, ("N").toList,
    [⟨("a.cpp").toList, 2, none⟩]⟩]

/-- Witness for C1 at a concrete two-error input over a three-line document. -/
theorem c1_structured_count_and_primary_witness :
    (∀ e ∈ errsW, e.locations ≠ []
      ∧ ∀ loc ∈ e.locations, 1 ≤ loc.line ∧ loc.line ≤ docW.length)
    ∧ ((buildStructured docW errsW).length = errsW.length
      ∧ List.Forall₂ (fun (e : SError) (d : SDiagnostic) =>
          ∃ p, e.locations.getLast? = some p ∧ d.line = (p.line : Int) - 1)
          errsW (buildStructured docW errsW)) :=
  ⟨by decide, c1_structured_count_and_primary docW errsW (by decide)⟩

/-- C4: an exit code strictly greater than 1 installs no diagnostic set (the
entry deleted at the start of the run stays deleted, whatever it held
before) and surfaces the combined trimmed error/output text; exit codes 0
and 1 are normal outcomes whose output is parsed and installed. -/
theorem c4_exit_code_handling (docLines : List Str) (minSevString standard : Str)
    (code : Int) (errText outText : Str) (prev : Option (List Diagnostic)) :
    (1 < code →
      runDiagEntry docLines minSevString standard (some code) errText outText prev = none
      ∧ runUserError (some code) errText outText
          = some (trimWs errText ++ ' ' :: trimWs outText))
    ∧ (code = 0 ∨ code = 1 →
      runDiagEntry docLines minSevString standard (some code) errText outText prev
          = some (textModeRun docLines minSevString standard errText outText)
      ∧ runUserError (some code) errText outText = none) := by
  constructor
  · intro hgt
    have hf : jsExitFailure (some code) = true := by
      simp only [jsExitFailure, Bool.and_eq_true, decide_eq_true_eq]
      omega
    exact ⟨by simp [runDiagEntry, hf], by simp [runUserError, hf]⟩
  · intro hok
    have hf : jsExitFailure (some code) = false := by
      rcases hok with h | h <;> simp [jsExitFailure, h]
    exact ⟨by simp [runDiagEntry, hf], by simp [runUserError, hf]⟩

/-- Witness for C4: exit code 2 with stderr "fatal error" installs nothing
and raises the combined message; exit code 0 installs the parsed set. -/
theorem c4_exit_code_handling_witness :
    (1 < (2 : Int)
      ∧ (runDiagEntry docW (("info").toList) (("c++17").toList) (some 2)
            (("fatal error").toList) [] (some []) = none
        ∧ runUserError (some 2) (("fatal error").toList) []
            = some (trimWs (("fatal error").toList) ++ ' ' :: trimWs [])))
    ∧ ((0 : Int) = 0
      ∧ (runDiagEntry docW (("info").toList) (("c++17").toList) (some 0)
            (("fatal error").toList) [] (some []) =
          some (textModeRun docW (("info").toList) (("c++17").toList)
            (("fatal error").toList) [])
        ∧ runUserError (some 0) (("fatal error").toList) [] = none)) :=
  ⟨⟨by decide,
    (c4_exit_code_handling docW (("info").toList) (("c++17").toList) 2
      (("fatal error").toList) [] (some [])).1 (by decide)⟩,
   ⟨rfl,
    (c4_exit_code_handling docW (("info").toList) (("c++17").toList) 0
      (("fatal error").toList) [] (some [])).2 (Or.inl rfl)⟩⟩

/-- C5: in both parsing modes, a finding whose zero-based line is negative
or at least the document's line count yields no diagnostic, and the
remaining findings are still processed. -/
theorem c5_out_of_range_dropped :
    (∀ (docLines : List Str) (minSevNum : Nat) (standard : Str) (f : Finding),
      ((f.line : Int) - 1 < 0 ∨ (f.line : Int) - 1 ≥ (docLines.length : Int)) →
      buildDiag docLines minSevNum standard f = none
      ∧ ∀ fs₁ fs₂, processFindings docLines minSevNum standard (fs₁ ++ f :: fs₂)
          = processFindings docLines minSevNum standard (fs₁ ++ fs₂))
    ∧ (∀ (docLines : List Str) (e : SError) (p : SLocation),
      e.locations.getLast? = some p →
      ((p.line : Int) - 1 < 0 ∨ (p.line : Int) - 1 ≥ (docLines.length : Int)) →
      buildStructuredOne docLines e = none
      ∧ ∀ es₁ es₂, buildStructured docLines (es₁ ++ e :: es₂)
          = buildStructured docLines (es₁ ++ es₂)) := by
  constructor
  · intro docLines minSevNum standard f hout
    have hnone : buildDiag docLines minSevNum standard f = none := by
      simp only [buildDiag]
      by_cases hs : severityToNumber (parseSeverity f.sevWord) < minSevNum
      · rw [if_pos hs]
      · rw [if_neg hs, if_pos hout]
    refine ⟨hnone, fun fs₁ fs₂ => ?_⟩
    simp [processFindings, List.filterMap_append, List.filterMap_cons, hnone]
  · intro docLines e p hp hout
    have hnone : buildStructuredOne docLines e = none := by
      rw [buildStructuredOne, hp]
      dsimp only
      rw [if_pos hout]
    refine ⟨hnone, fun es₁ es₂ => ?_⟩
    simp [buildStructured, List.filterMap_append, List.filterMap_cons, hnone]

/-- Witness for C5: a text finding at one-based line 0 and one at one past
the last line, and a structured error whose last location is one past the
last line, are all dropped while neighbours are kept. -/
theorem c5_out_of_range_dropped_witness :
    (((0 : Int) - 1 < 0 ∨ ((0 : Nat) : Int) - 1 ≥ ((docW.length : Nat) : Int))
      ∧ (buildDiag docW 0 (("c++17").toList)
            ⟨("a.cpp").toList, 0, 1, ("error").toList, ("bad").toList⟩ = none
        ∧ ∀ fs₁ fs₂, processFindings docW 0 (("c++17").toList)
            (fs₁ ++ ⟨("a.cpp").toList, 0, 1, ("error").toList, ("bad").toList⟩ :: fs₂)
            = processFindings docW 0 (("c++17").toList) (fs₁ ++ fs₂)))
    ∧ (buildStructuredOne docW
          ⟨("error").toList, ("id1").toList, ("M").toList,
            [⟨("a.cpp").toList, 4, none⟩]⟩ = none
      ∧ ∀ es₁ es₂, buildStructured docW
          (es₁ ++ ⟨("error").toList, ("id1").toList, ("M").toList,
            [⟨("a.cpp").toList, 4, none⟩]⟩ :: es₂)
          = buildStructured docW (es₁ ++ es₂)) :=
  ⟨⟨by decide,
    c5_out_of_range_dropped.1 docW 0 (("c++17").toList)
      ⟨("a.cpp").toList, 0, 1, ("error").toList, ("bad").toList⟩ (by decide)⟩,
   c5_out_of_range_dropped.2 docW
      ⟨("error").toList, ("id1").toList, ("M").toList, [⟨("a.cpp").toList, 4, none⟩]⟩
      ⟨("a.cpp").toList, 4, none⟩ (by decide) (by decide)⟩

/-- C7: every diagnostic produced from a finding with one-based line `L`
starts and ends on the zero-based line `L - 1`. -/
theorem c7_line_roundtrip (docLines : List Str) (minSevNum : Nat) (standard : Str)
    (f : Finding) (d : Diagnostic)
    (h : buildDiag docLines minSevNum standard f = some d) :
    d.startLine = (f.line : Int) - 1 ∧ d.endLine = (f.line : Int) - 1 := by
  simp only [buildDiag] at h
  by_cases hs : severityToNumber (parseSeverity f.sevWord) < minSevNum
  · rw [if_pos hs] at h; cases h
  · rw [if_neg hs] at h
    by_cases hr : (f.line : Int) - 1 < 0 ∨ (f.line : Int) - 1 ≥ (docLines.length : Int)
    · rw [if_pos hr] at h; cases h
    · rw [if_neg hr, Option.some.injEq] at h
      subst h
      exact ⟨rfl, rfl⟩

/-- Witness for C7 at a concrete finding on line 10 of a twelve-line
document. -/
theorem c7_line_roundtrip_witness :
    buildDiag (List.replicate 12 (("int x;").toList)) 0 (("c++17").toList)
        ⟨("a.cpp").toList, 10, 3, ("warning").toList, ("w").toList⟩
      = some { startLine := 9, startCol := 2, endLine := 9, endCol := 3,
               message := ("w").toList, severity := .Warning,
               code := ("c++17").toList, source := ("cppcheck").toList }
    ∧ (9 : Int) = ((10 : Nat) : Int) - 1 ∧ (9 : Int) = ((10 : Nat) : Int) - 1 :=
  ⟨by decide,
   c7_line_roundtrip (List.replicate 12 (("int x;").toList)) 0 (("c++17").toList)
     ⟨("a.cpp").toList, 10, 3, ("warning").toList, ("w").toList⟩
     { startLine := 9, startCol := 2, endLine := 9, endCol := 3,
       message := ("w").toList, severity := .Warning,
       code := ("c++17").toList, source := ("cppcheck").toList }
     (by decide)⟩

theorem normalizePath_abs (p : Str) (h : isAbsolutePath p = true) :
    isAbsolutePath (normalizePath p) = true := by
  simp only [normalizePath, h, if_pos]
  rfl

theorem joinPath_abs (a b : Str) (h : isAbsolutePath a = true) :
    isAbsolutePath (joinPath a b) = true := by
  have ha : a ≠ [] := by
    intro he
    rw [he] at h
    exact absurd h (by decide)
  rw [joinPath, if_neg (fun hc => ha hc.1), if_neg ha]
  by_cases hb : b = []
  · rw [if_pos hb]
    exact normalizePath_abs a h
  · rw [if_neg hb]
    apply normalizePath_abs
    cases a with
    | nil => exact absurd rfl ha
    | cons c t =>
      simp only [isAbsolutePath, decide_eq_true_eq] at h
      simp [isAbsolutePath, h]

/-- C10: `resolvePath` is total and, whenever the workspace root (or its
working-directory fallback) is absolute, returns an absolute path: any
input still relative after the expansions is joined to the workspace
root. -/
theorem c10_resolvePath_absolute (workspaceRoot homedir argPath : Str)
    (h : isAbsolutePath workspaceRoot = true) :
    isAbsolutePath (resolvePath workspaceRoot homedir argPath) = true := by
  simp only [resolvePath]
  by_cases hp : isAbsolutePath (resolvePathCore workspaceRoot homedir argPath) = true
  · rw [if_pos hp]
    exact hp
  · rw [if_neg hp]
    exact joinPath_abs _ _ h

/-- Witness for C10 on a relative argument under an absolute workspace
root. -/
theorem c10_resolvePath_absolute_witness :
    isAbsolutePath (("/w").toList) = true
    ∧ isAbsolutePath (resolvePath (("/w").toList) (("/home/u").toList)
        (("src/main.cpp").toList)) = true :=
  ⟨by decide,
   c10_resolvePath_absolute (("/w").toList) (("/home/u").toList)
     (("src/main.cpp").toList) (by decide)⟩

/-- C2 counterexample: on a document whose only line is empty, the finding
`a.cpp:1:1: error: m` produces a diagnostic whose range is zero-width
(start column = end column = 0), refuting "the resulting range is never
zero-width ... for every document line including empty lines". -/
theorem c2_zero_width_counterexample :
    (buildDiag [[]] 0 (("c++17").toList)
        ⟨("a.cpp").toList, 1, 1, ("error").toList, ("m").toList⟩).map
      (fun d => (d.startCol, d.endCol)) = some (0, 0) := by decide

/-- C2 amended: a negative (or unparsable) zero-based column is set to 0, a
column exceeding the line length is clamped to `max(0, len-1)`, and the end
column is `min(len, col+1)`; the resulting range covers exactly one
character whenever the clamped column is strictly below the line length —
which holds whenever the line is nonempty and the parsed column differs
from the line length — and is zero-width when the clamped column equals the
line length (so on every empty line, and when the parsed column is exactly
the line length). -/
theorem c2_column_clamp_amended :
    (∀ (raw : Int) (len : Nat),
      (raw < 0 → clampCol raw len = 0)
      ∧ ((len : Int) < raw → clampCol raw len = max 0 ((len : Int) - 1))
      ∧ (0 ≤ clampCol raw len ∧ clampCol raw len ≤ (len : Int))
      ∧ (clampCol raw len < (len : Int) →
          endColOf len (clampCol raw len) = clampCol raw len + 1)
      ∧ (clampCol raw len = (len : Int) →
          endColOf len (clampCol raw len) = clampCol raw len)
      ∧ (0 < (len : Int) → raw ≠ (len : Int) → clampCol raw len < (len : Int)))
    ∧ (∀ (docLines : List Str) (minSevNum : Nat) (standard : Str) (f : Finding)
        (d : Diagnostic),
      buildDiag docLines minSevNum standard f = some d →
      d.startCol = clampCol ((f.col : Int) - 1)
          (docLines.getD ((f.line : Int) - 1).toNat []).length
      ∧ d.endCol = endColOf (docLines.getD ((f.line : Int) - 1).toNat []).length
          d.startCol
      ∧ (d.startCol < ((docLines.getD ((f.line : Int) - 1).toNat []).length : Int) →
          d.endCol = d.startCol + 1)) := by
  constructor
  · intro raw len
    refine ⟨?_, ?_, ?_, ?_, ?_, ?_⟩ <;>
      (simp only [clampCol, endColOf]) <;> (split_ifs <;> omega)
  · intro docLines minSevNum standard f d h
    simp only [buildDiag] at h
    by_cases hs : severityToNumber (parseSeverity f.sevWord) < minSevNum
    · rw [if_pos hs] at h; cases h
    · rw [if_neg hs] at h
      by_cases hrange :
          (f.line : Int) - 1 < 0 ∨ (f.line : Int) - 1 ≥ (docLines.length : Int)
      · rw [if_pos hrange] at h; cases h
      · rw [if_neg hrange, Option.some.injEq] at h
        subst h
        refine ⟨rfl, rfl, fun hlt => ?_⟩
        dsimp only at hlt ⊢
        simp only [endColOf]
        omega

def diagW : Diagnostic :=
  { startLine := 0, startCol := 1, endLine := 0, endCol := 2,
    message := ("m").toList, severity := .Error,
    code := ("c++17").toList, source := ("cppcheck").toList }

/-- Witness for C2 amended: the clamp equations at `raw = -5, len = 3`, and
the range facts on the concrete diagnostic for `a.cpp:1:2: error: m` over
the one-line document `ab`. -/
theorem c2_column_clamp_amended_witness :
    (((-5 : Int) < 0 → clampCol (-5) 3 = 0)
      ∧ (((3 : Nat) : Int) < (-5 : Int) → clampCol (-5) 3 = max 0 (((3 : Nat) : Int) - 1))
      ∧ (0 ≤ clampCol (-5) 3 ∧ clampCol (-5) 3 ≤ ((3 : Nat) : Int))
      ∧ (clampCol (-5) 3 < ((3 : Nat) : Int) →
          endColOf 3 (clampCol (-5) 3) = clampCol (-5) 3 + 1)
      ∧ (clampCol (-5) 3 = ((3 : Nat) : Int) →
          endColOf 3 (clampCol (-5) 3) = clampCol (-5) 3)
      ∧ (0 < ((3 : Nat) : Int) → (-5 : Int) ≠ ((3 : Nat) : Int) →
          clampCol (-5) 3 < ((3 : Nat) : Int)))
    ∧ (diagW.startCol = clampCol (((2 : Nat) : Int) - 1)
          ([("ab").toList].getD ((((1 : Nat) : Int) - 1)).toNat []).length
      ∧ diagW.endCol = endColOf
          ([("ab").toList].getD ((((1 : Nat) : Int) - 1)).toNat []).length diagW.startCol
      ∧ (diagW.startCol <
            (([("ab").toList].getD ((((1 : Nat) : Int) - 1)).toNat []).length : Int) →
          diagW.endCol = diagW.startCol + 1)) :=
  ⟨c2_column_clamp_amended.1 (-5) 3,
   c2_column_clamp_amended.2 [("ab").toList] 0 (("c++17").toList)
     ⟨("a.cpp").toList, 1, 2, ("error").toList, ("m").toList⟩ diagW (by decide)⟩

/-- C3: a line matching the finding pattern, fed to the pipeline as the sole
content of the error stream, with its line inside the document, yields no
diagnostic when its severity is strictly below the configured threshold and
exactly one diagnostic otherwise. -/
theorem c3_severity_filter (docLines : List Str) (minSevString standard l : Str)
    (f : Finding) (hm : lineMatch l = some f) (hnl : '\n' ∉ l)
    (hr : 0 ≤ (f.line : Int) - 1 ∧ (f.line : Int) - 1 < (docLines.length : Int)) :
    (severityToNumber (parseSeverity f.sevWord) < parseMinSeverity minSevString →
      textModeRun docLines minSevString standard l [] = [])
    ∧ (parseMinSeverity minSevString ≤ severityToNumber (parseSeverity f.sevWord) →
      (textModeRun docLines minSevString standard l []).length = 1) := by
  have hsplit : splitLines (l ++ '\n' :: ([] : Str)) = [l, []] := by
    rw [splitLines, splitOnChar_append, splitOnChar_of_not_mem '\n' l hnl]
    rfl
  obtain ⟨n₀, htm⟩ : ∃ n₀, tryMatch l [] = some (f, n₀) := by
    rw [lineMatch] at hm
    cases htm' : tryMatch l [] with
    | none => rw [htm'] at hm; cases hm
    | some p =>
      obtain ⟨f', n'⟩ := p
      rw [htm'] at hm
      have hf : f' = f := by simpa using hm
      subst hf
      exact ⟨n', rfl⟩
  have hextract : extractFindings l [] = [f] := by
    rw [extractFindings, hsplit]
    rcases tryMatch_pad l f n₀ htm with hp | hp
    · rw [scanLines_cons, hp]
      rfl
    · rw [scanLines_cons, hp]
      rfl
  constructor
  · intro hlt
    have hnone : buildDiag docLines (parseMinSeverity minSevString) standard f = none := by
      simp only [buildDiag]
      rw [if_pos hlt]
    rw [textModeRun, hextract]
    simp [processFindings, List.filterMap_cons, hnone]
  · intro hge
    have hrange : ¬ ((f.line : Int) - 1 < 0 ∨ (f.line : Int) - 1 ≥ (docLines.length : Int)) := by
      push_neg
      omega
    have hs : ¬ severityToNumber (parseSeverity f.sevWord) < parseMinSeverity minSevString := by
      omega
    obtain ⟨d, hd⟩ : ∃ d, buildDiag docLines (parseMinSeverity minSevString) standard f
        = some d := by
      simp only [buildDiag]
      rw [if_neg hs, if_neg hrange]
      exact ⟨_, rfl⟩
    rw [textModeRun, hextract]
    simp [processFindings, List.filterMap_cons, hd]

def lineW : Str := ("a.cpp:10:3: warning: unused variable x").toList

def findW : Finding :=
  ⟨("a.cpp").toList, 10, 3, ("warning").toList, ("unused variable x").toList⟩

def docTallW : List Str := List.replicate 12 (("int x;").toList)

/-- Witness for C3: the warning line is filtered out under threshold
`error` and produces exactly one diagnostic under threshold `info`. -/
theorem c3_severity_filter_witness :
    (lineMatch lineW = some findW ∧ '\n' ∉ lineW
      ∧ 0 ≤ (findW.line : Int) - 1 ∧ (findW.line : Int) - 1 < (docTallW.length : Int))
    ∧ textModeRun docTallW (("error").toList) (("c++17").toList) lineW [] = []
    ∧ (textModeRun docTallW (("info").toList) (("c++17").toList) lineW []).length = 1 :=
  ⟨⟨by decide, by decide, by decide, by decide⟩,
   (c3_severity_filter docTallW (("error").toList) (("c++17").toList) lineW findW
     (by decide) (by decide) ⟨by decide, by decide⟩).1 (by decide),
   (c3_severity_filter docTallW (("info").toList) (("c++17").toList) lineW findW
     (by decide) (by decide) ⟨by decide, by decide⟩).2 (by decide)⟩

/-- C8 counterexample: `--projectz=./a` is not of the form
`--project=<path>`, yet it is not passed through unchanged — its path part
is resolved, because the code only tests `startsWith('--project')`. -/
theorem c8_project_arg_counterexample :
    (("--project=").toList).isPrefixOf (("--projectz=./a").toList) = false
    ∧ mapExtraArg (("/w").toList) (("/h").toList) (("--projectz=./a").toList)
        = some (("--projectz=/w/a").toList)
    ∧ mapExtraArg (("/w").toList) (("/h").toList) (("--projectz=./a").toList)
        ≠ some (("--projectz=./a").toList) :=
  ⟨by decide, by decide, by decide⟩

/-- C8 amended: every argument *starting with* `--project` (not only
`--project=<path>`) is split on `=` and passed on as its part before the
first `=`, an `=`, and the resolved text between the first and second `=`
(any text after a second `=` is dropped); a `--project`-prefixed argument
with no `=` at all makes the mapping fail (a `TypeError` on `undefined`);
arguments not starting with `--project` pass through unchanged.  Any
`--project`-prefixed argument containing an `=` is uniquely of the form
`a ++ "=" ++ rest` with no `=` in `a`, which is how the second and third
conjuncts cover all such arguments. -/
theorem c8_project_arg_amended (workspaceRoot homedir : Str) :
    (∀ arg : Str, ¬ (("--project").toList).isPrefixOf arg = true →
      mapExtraArg workspaceRoot homedir arg = some arg)
    ∧ (∀ a rest : Str, (("--project").toList) <+: a → '=' ∉ a →
      mapExtraArg workspaceRoot homedir (a ++ '=' :: rest)
        = some (a ++ '=' :: resolvePath workspaceRoot homedir
            (rest.takeWhile (fun x => x != '='))))
    ∧ (∀ arg : Str, (("--project").toList) <+: arg → '=' ∉ arg →
      mapExtraArg workspaceRoot homedir arg = none) := by
  refine ⟨fun arg h => ?_, fun a rest hpa hna => ?_, fun arg hpa hna => ?_⟩
  · rw [mapExtraArg, if_neg h]
  · have hpre : (("--project").toList).isPrefixOf (a ++ '=' :: rest) = true := by
      rw [List.isPrefixOf_iff_prefix]
      exact hpa.trans (List.prefix_append a ('=' :: rest))
    obtain ⟨ls, hhead⟩ := splitOnChar_head '=' rest
    have hsplit : splitOnChar '=' (a ++ '=' :: rest)
        = a :: (rest.takeWhile (fun x => x != '=')) :: ls := by
      rw [splitOnChar_append, splitOnChar_of_not_mem '=' a hna, hhead]
      rfl
    rw [mapExtraArg, if_pos hpre, hsplit]
  · have hpre : (("--project").toList).isPrefixOf arg = true :=
      List.isPrefixOf_iff_prefix.mpr hpa
    rw [mapExtraArg, if_pos hpre, splitOnChar_of_not_mem '=' arg hna]

/-- Witness for C8 amended: `--enable=all` passes through unchanged;
`--projectz=a=b` keeps its `--projectz` head, resolves only `a` and drops
`=b`; and a bare `--project` makes the mapping fail. -/
theorem c8_project_arg_amended_witness :
    (¬ (("--project").toList).isPrefixOf (("--enable=all").toList) = true
      ∧ mapExtraArg (("/w").toList) (("/h").toList) (("--enable=all").toList)
          = some (("--enable=all").toList))
    ∧ ((("--project").toList) <+: (("--projectz").toList)
      ∧ '=' ∉ (("--projectz").toList)
      ∧ mapExtraArg (("/w").toList) (("/h").toList)
            ((("--projectz").toList) ++ '=' :: (("a=b").toList))
          = some ((("--projectz").toList) ++ '=' ::
              resolvePath (("/w").toList) (("/h").toList)
                ((("a=b").toList).takeWhile (fun x => x != '='))))
    ∧ ((("--project").toList) <+: (("--project").toList)
      ∧ '=' ∉ (("--project").toList)
      ∧ mapExtraArg (("/w").toList) (("/h").toList) (("--project").toList) = none) :=
  ⟨⟨by decide,
    (c8_project_arg_amended (("/w").toList) (("/h").toList)).1
      (("--enable=all").toList) (by decide)⟩,
   ⟨⟨('z' :: []), rfl⟩, by decide,
    (c8_project_arg_amended (("/w").toList) (("/h").toList)).2.1
      (("--projectz").toList) (("a=b").toList) ⟨('z' :: []), rfl⟩ (by decide)⟩,
   ⟨List.prefix_refl _, by decide,
    (c8_project_arg_amended (("/w").toList) (("/h").toList)).2.2
      (("--project").toList) (List.prefix_refl _) (by decide)⟩⟩

/-- C9 counterexample: the multiline regex lets `\s*` consume a newline, so
with error stream `x:1:2:` and output stream `error: m` the code extracts
one finding spanning both lines, while neither line matches the pattern on
its own — extraction is not line-by-line. -/
theorem c9_line_by_line_counterexample :
    extractFindings (("x:1:2:").toList) (("error: m").toList)
      = [⟨("x").toList, 1, 2, ("error").toList, ("m").toList⟩]
    ∧ (splitLines (("x:1:2:").toList) ++ splitLines (("error: m").toList)).filterMap
        lineMatch = []
    ∧ extractFindings (("x:1:2:").toList) (("error: m").toList)
        ≠ (splitLines (("x:1:2:").toList) ++ splitLines (("error: m").toList)).filterMap
            lineMatch :=
  ⟨by decide, by decide, by decide⟩

/-- C9 amended: extraction applies the multiline pattern to the error stream
followed by the output stream joined by one newline (error lines scanned
first); a match may span physical lines when a `\s*` run reaches a line end,
but whenever every line is self-contained — no candidate match's whitespace
run reaches its line end — extraction is exactly line-by-line and every
non-matching line is ignored without error. -/
theorem c9_extraction_amended (errText outText : Str)
    (h : ∀ l ∈ splitLines errText ++ splitLines outText, selfContained l = true) :
    extractFindings errText outText
      = (splitLines errText ++ splitLines outText).filterMap lineMatch := by
  rw [extractFindings, splitLines, splitOnChar_append]
  exact scanLines_filterMap _ h

/-- Witness for C9 amended: a finding line in the error stream and chatter
in the output stream; the chatter is ignored and the one match survives. -/
theorem c9_extraction_amended_witness :
    (∀ l ∈ splitLines (("a.cpp:10:3: warning: unused x").toList)
        ++ splitLines (("Checking a.cpp ...").toList), selfContained l = true)
    ∧ extractFindings (("a.cpp:10:3: warning: unused x").toList)
        (("Checking a.cpp ...").toList)
      = (splitLines (("a.cpp:10:3: warning: unused x").toList)
          ++ splitLines (("Checking a.cpp ...").toList)).filterMap lineMatch :=
  ⟨by decide,
   c9_extraction_amended (("a.cpp:10:3: warning: unused x").toList)
     (("Checking a.cpp ...").toList) (by decide)⟩

end Cppcheck
